import Mathlib

/-!
Verification development for the mcp-trace-js message-level trace pipeline.

Shallow embedding of the TraceMiddleware (MCP transport interceptor variant of
`src/types.ts`), the MultiAdapter fan-out dispatcher
(`src/adapters/multi-adapters.ts`) and the buffering ContexaTraceAdapter.

Modelling conventions:
* JavaScript `undefined` is `Option.none`; JSON `null` is `Val.vnull`.
* ISO-8601 timestamps are modelled as numeric instants (`Date.now()` ticks).
* The single-threaded event loop is modelled by an explicit step function over
  a middleware state; `setTimeout` handles are explicit `TimerInfo` entries and
  a timer firing is an explicit event.
* The adapter handed to the middleware is modelled by the predicate
  `Cfg.adapterThrows` telling at which records its synchronous `export` throws;
  `St.exported` records every record passed to `adapter.export`.
-/

/-- JSON-like runtime values (the payloads flowing through the middleware). -/
inductive Val where
  | vnull
  | vbool (b : Bool)
  | vnum (n : Int)
  | vstr (s : String)
  | varr (xs : List Val)
  | vobj (fields : List (String × Val))

/-- JavaScript truthiness of a defined value. -/
def truthy : Val → Bool
  | .vnull => false
  | .vbool b => b
  | .vnum n => n != 0
  | .vstr s => s != ""
  | .varr _ => true
  | .vobj _ => true

/-- JavaScript `x || y` on possibly-undefined values, returning `y` as-is when
`x` is absent or falsy. -/
def jsOrV (x : Option Val) (y : Option Val) : Option Val :=
  match x with
  | some v => if truthy v then some v else y
  | none => y

/-- JavaScript `x || d` where `d` is a defined value. -/
def jsOrVal (x : Option Val) (d : Val) : Val :=
  match x with
  | some v => if truthy v then v else d
  | none => d

/-- JavaScript `x || y` on possibly-undefined strings (empty string is falsy). -/
def jsOrStr : Option String → String → String
  | some s, d => if s = "" then d else s
  | none, d => d

/-- First-match lookup in a JSON object's field list. -/
def vlookup : List (String × Val) → String → Option Val
  | [], _ => none
  | p :: l, k => if p.1 = k then some p.2 else vlookup l k

/-- JSON-RPC request/response id (`string | number` in the SDK). -/
inductive RpcId where
  | num (n : Int)
  | str (s : String)
deriving DecidableEq

/-- JSON-RPC error object (`{ code, message }`). -/
structure RpcErr where
  code : Int
  message : String

/-- A header value (`string | string[]`); multi-valued headers are nonempty. -/
inductive HVal where
  | one (s : String)
  | many (h : String) (rest : List String)

/-- JavaScript truthiness of a possibly-missing header value. -/
def truthyHV : Option HVal → Bool
  | none => false
  | some (.one s) => s != ""
  | some (.many _ _) => true

/-- The source's `Array.isArray(h) ? h[0] : h` on a header value. -/
def firstHV : HVal → String
  | .one s => s
  | .many h _ => h

/-- First-match lookup of a header by name. -/
def hget : List (String × HVal) → String → Option HVal
  | [], _ => none
  | p :: l, k => if p.1 = k then some p.2 else hget l k

/-- The `requestInfo` part of `MessageExtraInfo` (only `headers` is read). -/
structure ReqInfo where
  headers : Option (List (String × HVal)) := none

/-- Side-channel metadata delivered with a message (`MessageExtraInfo`). -/
structure Extra where
  requestInfo : Option ReqInfo := none

/-- The headers reached by `extra?.requestInfo?.headers`. -/
def headersOf : Option Extra → Option (List (String × HVal))
  | none => none
  | some ex =>
    match ex.requestInfo with
    | none => none
    | some ri => ri.headers

/-- The transport, as far as the middleware reads it (`transport?.sessionId`). -/
structure Transport where
  sessionId : Option String := none

/-- A JSON-RPC message as the middleware inspects it.  The `metaClientId`,
`clientId`, `contextClientId` fields model `message._meta?.clientId`,
`message.clientId` and `message.context?.clientId`; `mDuration` models the
`message._duration` read by `createTraceData`. -/
structure Message where
  method : Option String := none
  id : Option RpcId := none
  params : Option Val := none
  result : Option Val := none
  error : Option RpcErr := none
  metaClientId : Option Val := none
  clientId : Option Val := none
  contextClientId : Option Val := none
  mDuration : Option Val := none

/-- Truthiness of `message.method` (a string; empty string is falsy). -/
def methodTruthy : Option String → Bool
  | some s => s != ""
  | none => false

/-- The source's `isJSONRPCRequest`: a `method` string and a defined `id`. -/
def isJSONRPCRequest (m : Message) : Bool :=
  m.method.isSome && m.id.isSome

/-- The source's `isJSONRPCResponse`: a defined `id` and a defined `result`
or `error`. -/
def isJSONRPCResponse (m : Message) : Bool :=
  m.id.isSome && (m.result.isSome || m.error.isSome)

/-- The source's `isJSONRPCNotification`: a `method` string and no `id`. -/
def isJSONRPCNotification (m : Message) : Bool :=
  m.method.isSome && m.id.isNone

/-- Presence state of one key of a built trace record: the key may be absent
from the object, present with value `undefined`, or present with a value. -/
inductive Fld where
  | absent
  | undef
  | val (v : Val)

/-- Wrap a possibly-undefined value as a present object key. -/
def fldOf : Option Val → Fld
  | none => .undef
  | some v => .val v

/-- Reading a key off a record object in JS: absent and undefined both read
back as `undefined`. -/
def fldVal? : Fld → Option Val
  | .absent => none
  | .undef => none
  | .val v => some v

/-- Whether a record field is populated with a defined value. -/
def populatedF : Fld → Bool
  | .val _ => true
  | _ => false

/-- The canonical trace record (`TraceData`), one `Fld` per object key the
builders can emit. -/
structure TraceData where
  type : Fld
  method : Fld
  timestamp : Fld
  session_id : Fld
  client_id : Fld
  duration : Fld
  entity_name : Fld
  request : Fld
  response : Fld
  error : Fld
  ip_address : Fld
  user_id : Fld
  user_name : Fld
  user_email : Fld

/-- Enumeration of the trace-record keys, for uniform statements. -/
inductive Key where
  | type | method | timestamp | session_id | client_id | duration
  | entity_name | request | response | error | ip_address
  | user_id | user_name | user_email
deriving DecidableEq

/-- Uniform field access on a trace record. -/
def TraceData.getFld (d : TraceData) : Key → Fld
  | .type => d.type
  | .method => d.method
  | .timestamp => d.timestamp
  | .session_id => d.session_id
  | .client_id => d.client_id
  | .duration => d.duration
  | .entity_name => d.entity_name
  | .request => d.request
  | .response => d.response
  | .error => d.error
  | .ip_address => d.ip_address
  | .user_id => d.user_id
  | .user_name => d.user_name
  | .user_email => d.user_email

/-- The per-field enable map (`LogFields`).  `none` models a key that is
absent from the runtime object.  The `arguments` entry exists because the
constructor defaults it, although no built record carries that key. -/
structure LogFields where
  type : Option Bool := none
  method : Option Bool := none
  timestamp : Option Bool := none
  session_id : Option Bool := none
  client_id : Option Bool := none
  duration : Option Bool := none
  entity_name : Option Bool := none
  arguments : Option Bool := none
  request : Option Bool := none
  response : Option Bool := none
  error : Option Bool := none
  ip_address : Option Bool := none
  user_id : Option Bool := none
  user_name : Option Bool := none
  user_email : Option Bool := none

/-- The enable-map entry consulted when filtering record key `k`. -/
def lfGet (lf : LogFields) : Key → Option Bool
  | .type => lf.type
  | .method => lf.method
  | .timestamp => lf.timestamp
  | .session_id => lf.session_id
  | .client_id => lf.client_id
  | .duration => lf.duration
  | .entity_name => lf.entity_name
  | .request => lf.request
  | .response => lf.response
  | .error => lf.error
  | .ip_address => lf.ip_address
  | .user_id => lf.user_id
  | .user_name => lf.user_name
  | .user_email => lf.user_email

/-- The constructor's merge `{ type: true, ..., error: true, ...options.logFields }`:
the ten literal defaults, overridden by any user-supplied entries. -/
def mergeLogFields (user : LogFields) : LogFields :=
  { type := some (user.type.getD true)
    method := some (user.method.getD true)
    timestamp := some (user.timestamp.getD true)
    session_id := some (user.session_id.getD true)
    client_id := some (user.client_id.getD true)
    duration := some (user.duration.getD true)
    entity_name := some (user.entity_name.getD true)
    arguments := some (user.arguments.getD true)
    request := user.request
    response := user.response
    error := some (user.error.getD true)
    ip_address := user.ip_address
    user_id := user.user_id
    user_name := user.user_name
    user_email := user.user_email }

/-- One key of the `filterTraceData` loop: a key is copied unless its enable
entry is literally `false` (`this.logFields[key] !== false`). -/
def keepFld (ob : Option Bool) (v : Fld) : Fld :=
  if ob = some false then .absent else v

/-- The source's `filterTraceData`: copy every present key whose enable entry
is not `false`. -/
def filterTraceData (lf : LogFields) (d : TraceData) : TraceData :=
  { type := keepFld lf.type d.type
    method := keepFld lf.method d.method
    timestamp := keepFld lf.timestamp d.timestamp
    session_id := keepFld lf.session_id d.session_id
    client_id := keepFld lf.client_id d.client_id
    duration := keepFld lf.duration d.duration
    entity_name := keepFld lf.entity_name d.entity_name
    request := keepFld lf.request d.request
    response := keepFld lf.response d.response
    error := keepFld lf.error d.error
    ip_address := keepFld lf.ip_address d.ip_address
    user_id := keepFld lf.user_id d.user_id
    user_name := keepFld lf.user_name d.user_name
    user_email := keepFld lf.user_email d.user_email }

/-- A configured redaction function; a `.error` result models a throw. -/
def RedactFn : Type := Val → Except String Val

/-- The identity extracted by a configured `identifyUser` function. -/
structure UserInfo where
  user_id : Option String := none
  user_name : Option String := none
  user_email : Option String := none

/-- A configured `identifyUser` function over the request headers; `.error`
models a throw, `.ok none` models returning `undefined`. -/
def UserFn : Type := List (String × HVal) → Except String (Option UserInfo)

/-- Middleware configuration after the constructor ran: the merged enable map,
the optional redaction and identity functions, and the adapter's synchronous
throwing behaviour (`adapterThrows r = true` models `adapter.export(r)`
throwing). -/
structure Cfg where
  adapterThrows : TraceData → Bool
  redact : Option RedactFn := none
  identifyUser : Option UserFn := none
  logFields : LogFields

/-- The source's `applyRedaction`: skip when unconfigured or when the payload
is `null`/`undefined`; a throw is caught and the original payload returned. -/
def applyRedaction (redact : Option RedactFn) (data : Option Val) : Option Val :=
  match redact, data with
  | none, _ => data
  | some _, none => none
  | some f, some v =>
    match v with
    | .vnull => some .vnull
    | v =>
      match f v with
      | .ok r => some r
      | .error _ => some v

/-- The source's `extractClientId`:
`message._meta?.clientId || message.clientId || message.context?.clientId`. -/
def extractClientId (m : Message) : Option Val :=
  jsOrV m.metaClientId (jsOrV m.clientId m.contextClientId)

/-- The source's `getIpAddress`: first truthy of the five proxy headers, with
`x-forwarded-for` split at the first comma and trimmed. -/
def getIpAddress (extra : Option Extra) : Option String :=
  match headersOf extra with
  | none => none
  | some hs =>
    let xForwardedFor := hget hs "x-forwarded-for"
    let xRealIp := hget hs "x-real-ip"
    let cfConnectingIp := hget hs "cf-connecting-ip"
    let xClientIp := hget hs "x-client-ip"
    let remoteAddr := hget hs "remote-addr"
    if truthyHV xForwardedFor then
      some ((((firstHV ((xForwardedFor).getD (.one ""))).splitOn ",").headD "").trim)
    else if truthyHV xRealIp then some (firstHV ((xRealIp).getD (.one "")))
    else if truthyHV cfConnectingIp then some (firstHV ((cfConnectingIp).getD (.one "")))
    else if truthyHV xClientIp then some (firstHV ((xClientIp).getD (.one "")))
    else if truthyHV remoteAddr then some (firstHV ((remoteAddr).getD (.one "")))
    else none

/-- The source's `getUserInfo`: `{}` when unconfigured or headers are missing;
a throw from the user function is caught and `{}` returned; a returned
`undefined` falls back to `{}`. -/
def getUserInfo (cfg : Cfg) (extra : Option Extra) : UserInfo :=
  match cfg.identifyUser, headersOf extra with
  | some f, some hs =>
    match f hs with
    | .ok (some u) => u
    | .ok none => {}
    | .error _ => {}
  | _, _ => {}

/-- Entity-name extraction inside `createTraceData`: for the three
sub-operation methods, `message.params?.name || ""`; otherwise `""`. -/
def entityNameOf (m : Message) : Val :=
  let method := match m.method with
    | some s => if s = "" then none else some s
    | none => none
  if method = some "tools/call" ∨ method = some "prompts/get" ∨
      method = some "resources/read" then
    jsOrVal (match m.params with
      | some (.vobj fs) => vlookup fs "name"
      | _ => none) (.vstr "")
  else .vstr ""

/-- The unfiltered record object built by the source's `createTraceData`
(everything up to the final `filterTraceData` call). -/
def createTraceDataRaw (cfg : Cfg) (m : Message) (extra : Option Extra)
    (tr : Option Transport) (t : Nat) : TraceData :=
  let type : String :=
    if methodTruthy m.method && m.id.isNone then "notification" else "request"
  let method : Option String := match m.method with
    | some s => if s = "" then none else some s
    | none => none
  let sessionHdr : Option String :=
    ((headersOf extra).bind (fun hs => hget hs "mcp-session-id")).map firstHV
  let userAgentHdr : Option String :=
    ((headersOf extra).bind (fun hs => hget hs "user-agent")).map firstHV
  let sessionId : String :=
    jsOrStr sessionHdr (jsOrStr (tr.bind (fun x => x.sessionId)) "")
  let clientIdV : Option Val :=
    jsOrV (extractClientId m) (jsOrV (userAgentHdr.map Val.vstr) none)
  let userInfo := getUserInfo cfg extra
  { type := .val (.vstr type)
    method := fldOf (method.map Val.vstr)
    timestamp := .val (.vnum (t : Int))
    session_id := .val (.vstr sessionId)
    client_id := fldOf clientIdV
    duration := fldOf m.mDuration
    entity_name := .val (entityNameOf m)
    request := fldOf (applyRedaction cfg.redact m.params)
    response := fldOf (applyRedaction cfg.redact m.result)
    error := fldOf (m.error.map (fun e => .vstr (toString e.code ++ ": " ++ e.message)))
    ip_address := fldOf ((getIpAddress extra).map Val.vstr)
    user_id := fldOf (userInfo.user_id.map Val.vstr)
    user_name := fldOf (userInfo.user_name.map Val.vstr)
    user_email := fldOf (userInfo.user_email.map Val.vstr) }

/-- The source's `createTraceData`: the raw record passed through field
filtering (the builder never returns `undefined`). -/
def createTraceData (cfg : Cfg) (m : Message) (extra : Option Extra)
    (tr : Option Transport) (t : Nat) : TraceData :=
  filterTraceData cfg.logFields (createTraceDataRaw cfg m extra tr t)

/-- The unfiltered combined record built by `createCombinedTraceData`: request
side (method, session/client identity, entity name, users) read back from the
stored request record, response payload and duration from the response.  The
combined object literal carries no `error` or `ip_address` key. -/
def createCombinedRaw (cfg : Cfg) (requestData : TraceData) (m : Message)
    (duration : Int) (t : Nat) : TraceData :=
  { type := .val (.vstr "request")
    method := fldOf (fldVal? requestData.method)
    timestamp := .val (.vnum (t : Int))
    session_id := fldOf (fldVal? requestData.session_id)
    client_id := fldOf (fldVal? requestData.client_id)
    duration := .val (.vnum duration)
    entity_name := fldOf (fldVal? requestData.entity_name)
    request := fldOf (applyRedaction cfg.redact (fldVal? requestData.request))
    response := fldOf (applyRedaction cfg.redact m.result)
    error := .absent
    ip_address := .absent
    user_id := fldOf (fldVal? requestData.user_id)
    user_name := fldOf (fldVal? requestData.user_name)
    user_email := fldOf (fldVal? requestData.user_email) }

/-- The source's `createCombinedTraceData`: the combined record passes through
field filtering again before export. -/
def createCombinedTraceData (cfg : Cfg) (requestData : TraceData) (m : Message)
    (duration : Int) (t : Nat) : TraceData :=
  filterTraceData cfg.logFields (createCombinedRaw cfg requestData m duration t)

/-- Association-list lookup, modelling `Map.get` on the pending tables. -/
def alookup {α : Type} : List (RpcId × α) → RpcId → Option α
  | [], _ => none
  | p :: l, k => if p.1 = k then some p.2 else alookup l k

/-- Association-list insert/replace, modelling `Map.set` (replaces the entry
in place when the key exists, appends otherwise). -/
def ainsert {α : Type} : List (RpcId × α) → RpcId → α → List (RpcId × α)
  | [], k, v => [(k, v)]
  | p :: l, k, v => if p.1 = k then (k, v) :: l else p :: ainsert l k v

/-- Association-list removal of a key, modelling `Map.delete`. -/
def aerase {α : Type} : List (RpcId × α) → RpcId → List (RpcId × α)
  | [], _ => []
  | p :: l, k => if p.1 = k then aerase l k else p :: aerase l k

/-- Number of entries stored under a key. -/
def countKey {α : Type} : List (RpcId × α) → RpcId → Nat
  | [], _ => 0
  | p :: l, k => (if p.1 = k then 1 else 0) + countKey l k

/-- The fixed eviction window: `5 * 60 * 1000` milliseconds. -/
def evictionWindowMs : Nat := 5 * 60 * 1000

/-- One entry of the `pendingRequests` table. -/
structure PendingEntry where
  startTime : Nat
  requestData : TraceData
  requestExtra : Option Extra := none
  transport : Option Transport := none

/-- A scheduled, not-yet-fired, not-yet-cancelled eviction timer: its
`setTimeout` handle, its due time, and the request id its callback deletes. -/
structure TimerInfo where
  tid : Nat
  fireAt : Nat
  reqId : RpcId
deriving DecidableEq

/-- Middleware state: the two pending tables, the outstanding timers, the
records passed to `adapter.export` so far, and a fresh-handle counter. -/
structure St where
  pending : List (RpcId × PendingEntry) := []
  timeouts : List (RpcId × Nat) := []
  timers : List TimerInfo := []
  exported : List TraceData := []
  nextTimer : Nat := 0

/-- The source's `handleRequest` at wall-clock time `t`: build the request
record, store the pending entry and schedule the eviction timeout under the
message id (overwriting existing entries, cancelling nothing).  The trailing
`message.method && message.id === undefined` export branch is kept verbatim;
it is dead because `handleRequest` only runs for messages with a defined id. -/
def handleRequest (cfg : Cfg) (s : St) (m : Message) (extra : Option Extra)
    (tr : Option Transport) (t : Nat) : St :=
  match m.id with
  | none => s
  | some i =>
    let td := createTraceData cfg m extra tr t
    let s1 : St :=
      { s with
        pending := ainsert s.pending i
          { startTime := t, requestData := td, requestExtra := extra, transport := tr }
        timers := s.timers ++ [{ tid := s.nextTimer, fireAt := t + evictionWindowMs, reqId := i }]
        timeouts := ainsert s.timeouts i s.nextTimer
        nextTimer := s.nextTimer + 1 }
    if methodTruthy m.method && m.id.isNone then
      { s1 with exported := s1.exported ++ [td] }
    else s1

/-- The source's `handleOutgoingResponse` at time `t`: with a pending entry,
export the combined record once, then delete the entry and clear its timer;
a synchronous throw from `adapter.export` is caught by the surrounding
`try`, skipping the deletions.  Without a pending entry, export a standalone
record built from the response alone. -/
def handleOutgoingResponse (cfg : Cfg) (s : St) (m : Message)
    (tr : Option Transport) (t : Nat) : St :=
  match m.id with
  | none => s
  | some i =>
    match alookup s.pending i with
    | some pending =>
      let duration : Int := (t : Int) - (pending.startTime : Int)
      let combined := createCombinedTraceData cfg pending.requestData m duration t
      let s1 := { s with exported := s.exported ++ [combined] }
      if cfg.adapterThrows combined then s1
      else
        let s2 := { s1 with pending := aerase s1.pending i }
        match alookup s2.timeouts i with
        | some tid =>
          { s2 with
            timers := s2.timers.filter (fun tm => tm.tid != tid)
            timeouts := aerase s2.timeouts i }
        | none => s2
    | none =>
      { s with exported := s.exported ++ [createTraceData cfg m none tr t] }

/-- The source's `logMessage`: build a record and export it (the adapter call
is the last statement, so a caught throw changes nothing further). -/
def logMessage (cfg : Cfg) (s : St) (m : Message) (extra : Option Extra)
    (t : Nat) : St :=
  { s with exported := s.exported ++ [createTraceData cfg m extra none t] }

/-- The source's `handleIncomingMessage` dispatch. -/
def handleIncomingMessage (cfg : Cfg) (s : St) (m : Message)
    (extra : Option Extra) (tr : Option Transport) (t : Nat) : St :=
  if isJSONRPCRequest m then handleRequest cfg s m extra tr t
  else if isJSONRPCNotification m then logMessage cfg s m extra t
  else s

/-- The source's `handleOutgoingMessage` dispatch (notifications sent by the
server are logged with `extra = undefined`). -/
def handleOutgoingMessage (cfg : Cfg) (s : St) (m : Message)
    (tr : Option Transport) (t : Nat) : St :=
  if isJSONRPCResponse m then handleOutgoingResponse cfg s m tr t
  else if isJSONRPCNotification m then logMessage cfg s m none t
  else s

/-- A scheduled eviction callback firing: the timer is consumed and its
callback deletes the pending entry and the timeout handle stored under the
timer's request id (whatever they hold at that moment). -/
def fireTimer (s : St) (tm : TimerInfo) : St :=
  if tm ∈ s.timers then
    { s with
      timers := s.timers.erase tm
      pending := aerase s.pending tm.reqId
      timeouts := aerase s.timeouts tm.reqId }
  else s

/-- Events of the single-threaded event loop relevant to the correlator. -/
inductive Ev where
  | incoming (m : Message) (extra : Option Extra) (tr : Option Transport) (t : Nat)
  | outgoing (m : Message) (tr : Option Transport) (t : Nat)
  | fire (tm : TimerInfo)

/-- One event-loop step. -/
def step (cfg : Cfg) (s : St) : Ev → St
  | .incoming m extra tr t => handleIncomingMessage cfg s m extra tr t
  | .outgoing m tr t => handleOutgoingMessage cfg s m tr t
  | .fire tm => fireTimer s tm

/-- Run a sequence of events. -/
def run (cfg : Cfg) (s : St) : List Ev → St
  | [] => s
  | ev :: evs => run cfg (step cfg s ev) evs

/-- Whether an event touches the correlation key `i`: a message carrying id
`i`, or the firing of an eviction timer targeted at `i`. -/
def involves (i : RpcId) : Ev → Prop
  | .incoming m _ _ _ => m.id = some i
  | .outgoing m _ _ => m.id = some i
  | .fire tm => tm.reqId = i

/-- Observable happenings inside a wrapped transport hook. -/
inductive HookEv where
  | traced
  | origCalled (m : Message)

/-- Result of one invocation of a wrapped hook: the ordered happenings, and
the error (if any) that escaped the wrapper to the transport. -/
structure HookRun where
  events : List HookEv
  thrown : Option String

/-- The wrapped `transport.onmessage` installed by `handle`, abstracted over
the tracing step (which the `try` guards as possibly throwing) and the
previously-installed hook: run tracing, then the original hook; on any throw,
log/swallow it and still run the original hook from the `catch`.  A throw
from the original hook inside the `try` is also caught, after which the
`catch` invokes the original hook a second time; only that second throw
escapes. -/
def wrappedOnMessage (trace : Message → Except String St)
    (orig : Option (Message → Except String Unit)) (m : Message) : HookRun :=
  match trace m with
  | .ok _ =>
    match orig with
    | none => { events := [.traced], thrown := none }
    | some o =>
      match o m with
      | .ok _ => { events := [.traced, .origCalled m], thrown := none }
      | .error _ =>
        match o m with
        | .ok _ => { events := [.traced, .origCalled m, .origCalled m], thrown := none }
        | .error e2 => { events := [.traced, .origCalled m, .origCalled m], thrown := some e2 }
  | .error _ =>
    match orig with
    | none => { events := [.traced], thrown := none }
    | some o =>
      match o m with
      | .ok _ => { events := [.traced, .origCalled m], thrown := none }
      | .error e => { events := [.traced, .origCalled m], thrown := some e }

/-- The wrapped `transport.send` installed by `handle`; same shape as the
wrapped `onmessage`, with the bound original `send` always present. -/
def wrappedSend (trace : Message → Except String St)
    (origSend : Message → Except String Unit) (m : Message) : HookRun :=
  match trace m with
  | .ok _ =>
    match origSend m with
    | .ok _ => { events := [.traced, .origCalled m], thrown := none }
    | .error _ =>
      match origSend m with
      | .ok _ => { events := [.traced, .origCalled m, .origCalled m], thrown := none }
      | .error e2 => { events := [.traced, .origCalled m, .origCalled m], thrown := some e2 }
  | .error _ =>
    match origSend m with
    | .ok _ => { events := [.traced, .origCalled m], thrown := none }
    | .error e => { events := [.traced, .origCalled m], thrown := some e }

/-- Behaviour of one configured sink's `export`: the records it durably
records during the call, and the error it throws/rejects with, if any. -/
def SinkBeh : Type := TraceData → List TraceData × Option String

/-- One error logged by the fan-out dispatcher, tagged with the failing
sink's 1-based positional index (`adapter #${index + 1}`). -/
structure MultiLog where
  index : Nat
  msg : String
deriving DecidableEq

/-- The body of `MultiAdapter.export`'s `adapters.map((adapter, index) => ...)`:
invoke every sink with the record regardless of other sinks' outcomes,
catching each failure and logging it with the sink's index; `i` is the 0-based
index of the first sink in the remaining list. -/
def multiExportAux (r : TraceData) : List SinkBeh → Nat → List (List TraceData) × List MultiLog
  | [], _ => ([], [])
  | sink :: rest, i =>
    let (recs, err) := sink r
    let (stores, logs) := multiExportAux r rest (i + 1)
    (recs :: stores,
      (match err with
       | some e => [{ index := i + 1, msg := e }]
       | none => []) ++ logs)

/-- The source's `MultiAdapter.export`: fan the record out to every adapter;
per-sink failures are caught and logged, never propagated, and the call
settles only once every sink invocation has settled. -/
def multiAdapterExport (sinks : List SinkBeh) (r : TraceData) :
    List (List TraceData) × List MultiLog :=
  multiExportAux r sinks 0

/-- State of the buffering `ContexaTraceAdapter`. -/
structure ContexaSt where
  buffer : List TraceData
  bufferSize : Nat
  isRunning : Bool
  stop : Bool

/-- The adapter's constructor state: empty buffer, configured capacity with
default `1000`. -/
def mkContexaSt (cfgBufferSize : Option Nat) : ContexaSt :=
  { buffer := [], bufferSize := cfgBufferSize.getD 1000, isRunning := false, stop := false }

/-- The source's `startWorker`: mark the drain worker running unless it
already is or the adapter is stopped (buffer untouched). -/
def contexaStartWorker (s : ContexaSt) : ContexaSt :=
  if s.isRunning || s.stop then s else { s with isRunning := true }

/-- The source's `ContexaTraceAdapter.export`: append when under capacity and
start the worker, else drop the newly arriving record with a warning
(`true` in the second component means a drop warning was logged). -/
def contexaExport (s : ContexaSt) (r : TraceData) : ContexaSt × Bool :=
  if s.buffer.length < s.bufferSize then
    (contexaStartWorker { s with buffer := s.buffer ++ [r] }, false)
  else
    (s, true)

/-- Feed a list of records through `export` in order, counting drop
warnings. -/
def contexaExportAll : ContexaSt → List TraceData → ContexaSt × Nat
  | s, [] => (s, 0)
  | s, r :: rs =>
    let (s1, warned) := contexaExport s r
    let (s2, n) := contexaExportAll s1 rs
    (s2, (if warned then 1 else 0) + n)

/-- A middleware configuration with every option left at its default: a
well-behaved adapter, no redaction, no identity extraction, and the
constructor's merge of an empty `logFields` option. -/
def defaultCfg : Cfg :=
  { adapterThrows := fun _ => false, logFields := mergeLogFields {} }

/-- A concrete record used to exercise the sinks. -/
def sampleRecord : TraceData :=
  { type := .val (.vstr "request"), method := .val (.vstr "tools/call")
    timestamp := .val (.vnum 0), session_id := .val (.vstr "s1")
    client_id := .undef, duration := .undef, entity_name := .val (.vstr "add")
    request := .undef, response := .undef, error := .undef, ip_address := .undef
    user_id := .undef, user_name := .undef, user_email := .undef }

/-- A sink whose `export` always throws. -/
def throwingSink : SinkBeh := fun _ => ([], some "sink A failed")

/-- A sink whose `export` records the record and succeeds. -/
def storingSink : SinkBeh := fun r => ([r], none)

/-- A configuration whose enable map disables the `duration` field. -/
def durationOffCfg : Cfg :=
  { adapterThrows := fun _ => false, logFields := mergeLogFields { duration := some false } }

/-- A params-less notification, as the MCP `notifications/initialized`
message arrives. -/
def notifNoParams : Message := { method := some "notifications/initialized" }

/-- A notification-shaped message that carries both `params` and `result`. -/
def notifBoth : Message :=
  { method := some "m", params := some (.vobj []), result := some (.vstr "r") }

/-- An ordinary progress notification carrying params and no result. -/
def notifProgress : Message :=
  { method := some "notifications/progress", params := some (.vobj [("progress", .vnum 1)]) }

/-- Side-channel metadata carrying a truthy `X-Ignore-Traces` bypass header. -/
def bypassExtra : Option Extra :=
  some { requestInfo := some { headers := some [("x-ignore-traces", HVal.one "true")] } }

/-- A concrete `tools/call` request with id 1. -/
def reqMsg : Message :=
  { method := some "tools/call", id := some (.num 1), params := some (.vobj [("name", .vstr "add")]) }

/-- A plain notification with no id. -/
def notifMsg : Message := { method := some "notifications/progress" }

/-- The state after the interceptor sees `reqMsg` at time 100. -/
def sReq : St := handleIncomingMessage defaultCfg {} reqMsg none none 100

/-- The pending entry stored for `reqMsg`. -/
def pReq : PendingEntry :=
  { startTime := 100, requestData := createTraceData defaultCfg reqMsg none none 100 }

/-- The response matching `reqMsg`, sent at time 110. -/
def respMsg : Message := { id := some (.num 1), result := some (.vobj [("sum", .vnum 3)]) }

/-- The combined record for the `reqMsg`/`respMsg` pair. -/
def combinedReq : TraceData :=
  createCombinedTraceData defaultCfg pReq.requestData respMsg 10 110

/-- A second `tools/call` request reusing id 1 while `reqMsg` is pending. -/
def reqMsg2 : Message :=
  { method := some "tools/call", id := some (.num 1), params := some (.vobj [("name", .vstr "other")]) }

/-- The eviction timer scheduled for `reqMsg` at time 100. -/
def tmReq : TimerInfo := { tid := 0, fireAt := 100 + evictionWindowMs, reqId := .num 1 }

/-- The correlator's per-id invariant while a request with id `i` is in
flight: the pending table stores exactly the entry `e` under `i`, the
eviction timer `tm` for `i` is still scheduled, the timeout table stores its
handle under `i`, the handle is in the already-allocated range, and no other
id's stored handle aliases it. -/
def EvTimerState (i : RpcId) (e : PendingEntry) (tm : TimerInfo) (s : St) : Prop :=
  alookup s.pending i = some e ∧
  countKey s.pending i = 1 ∧
  tm ∈ s.timers ∧
  tm.reqId = i ∧
  alookup s.timeouts i = some tm.tid ∧
  tm.tid < s.nextTimer ∧
  (∀ j td, j ≠ i → alookup s.timeouts j = some td → td ≠ tm.tid)

theorem alookup_ainsert_self {α : Type} (l : List (RpcId × α)) (k : RpcId) (v : α) :
    alookup (ainsert l k v) k = some v := by
  induction l with
  | nil => simp [ainsert, alookup]
  | cons p l ih =>
    by_cases h : p.1 = k
    · simp [ainsert, alookup, h]
    · simp [ainsert, alookup, h, ih]

theorem alookup_ainsert_ne {α : Type} (l : List (RpcId × α)) (k k' : RpcId) (v : α)
    (h : k' ≠ k) : alookup (ainsert l k v) k' = alookup l k' := by
  induction l with
  | nil => simp [ainsert, alookup, h, Ne.symm h]
  | cons p l ih =>
    by_cases hp : p.1 = k
    · subst hp
      simp [ainsert, alookup, Ne.symm h, h]
    · by_cases hp' : p.1 = k'
      · simp [ainsert, alookup, hp, hp', h]
      · simp [ainsert, alookup, hp, hp', ih]

theorem alookup_aerase_self {α : Type} (l : List (RpcId × α)) (k : RpcId) :
    alookup (aerase l k) k = none := by
  induction l with
  | nil => simp [aerase, alookup]
  | cons p l ih =>
    by_cases h : p.1 = k
    · simp [aerase, h, ih]
    · simp [aerase, alookup, h, ih]

theorem alookup_aerase_ne {α : Type} (l : List (RpcId × α)) (k k' : RpcId)
    (h : k' ≠ k) : alookup (aerase l k) k' = alookup l k' := by
  induction l with
  | nil => simp [aerase]
  | cons p l ih =>
    by_cases hp : p.1 = k
    · subst hp
      simp [aerase, alookup, Ne.symm h, ih]
    · by_cases hp' : p.1 = k'
      · simp [aerase, alookup, hp, hp', h]
      · simp [aerase, alookup, hp, hp', ih]

theorem countKey_ainsert_ne {α : Type} (l : List (RpcId × α)) (j i : RpcId) (v : α)
    (h : j ≠ i) : countKey (ainsert l j v) i = countKey l i := by
  induction l with
  | nil => simp [ainsert, countKey, h]
  | cons p l ih =>
    by_cases hp : p.1 = j
    · subst hp
      simp [ainsert, countKey, h]
    · simp [ainsert, countKey, hp, ih]

theorem countKey_aerase_ne {α : Type} (l : List (RpcId × α)) (j i : RpcId)
    (h : j ≠ i) : countKey (aerase l j) i = countKey l i := by
  induction l with
  | nil => simp [aerase, countKey]
  | cons p l ih =>
    by_cases hp : p.1 = j
    · subst hp
      simp [aerase, countKey, h, Ne.symm h, ih]
    · simp [aerase, countKey, hp, ih]

theorem countKey_eq_zero {α : Type} (l : List (RpcId × α)) (k : RpcId)
    (h : alookup l k = none) : countKey l k = 0 := by
  induction l with
  | nil => simp [countKey]
  | cons p l ih =>
    by_cases hp : p.1 = k
    · simp [alookup, hp] at h
    · simp [alookup, hp] at h
      simp [countKey, hp, ih h]

theorem length_ainsert_new {α : Type} (l : List (RpcId × α)) (k : RpcId) (v : α)
    (h : alookup l k = none) : (ainsert l k v).length = l.length + 1 := by
  induction l with
  | nil => simp [ainsert]
  | cons p l ih =>
    by_cases hp : p.1 = k
    · simp [alookup, hp] at h
    · simp [alookup, hp] at h
      simp [ainsert, hp, ih h]

theorem length_aerase_of_countKey_one {α : Type} (l : List (RpcId × α)) (k : RpcId)
    (h : countKey l k = 1) : (aerase l k).length + 1 = l.length := by
  induction l with
  | nil => simp [countKey] at h
  | cons p l ih =>
    by_cases hp : p.1 = k
    · simp [countKey, hp] at h
      have : aerase (p :: l) k = aerase l k := by simp [aerase, hp]
      rw [this]
      have hz : countKey l k = 0 := h
      have : aerase l k = l := by
        clear ih this h
        induction l with
        | nil => simp [aerase]
        | cons q l ih2 =>
          by_cases hq : q.1 = k
          · simp [countKey, hq] at hz
          · simp [countKey, hq] at hz
            simp [aerase, hq, ih2 hz]
      simp [this]
    · simp [countKey, hp] at h
      simp [aerase, hp]
      exact ih h

theorem countKey_pos_of_alookup {α : Type} (l : List (RpcId × α)) (k : RpcId) (v : α)
    (h : alookup l k = some v) : 0 < countKey l k := by
  induction l with
  | nil => simp [alookup] at h
  | cons p l ih =>
    by_cases hp : p.1 = k
    · simp [countKey, hp]
    · simp [alookup, hp] at h
      simp [countKey, hp]
      exact ih h

theorem fldVal?_fldOf (x : Option Val) : fldVal? (fldOf x) = x := by
  cases x <;> rfl

theorem populatedF_fldOf (x : Option Val) : populatedF (fldOf x) = x.isSome := by
  cases x <;> rfl

theorem keepFld_idem (ob : Option Bool) (v : Fld) :
    keepFld ob (keepFld ob v) = keepFld ob v := by
  by_cases h : ob = some false <;> simp [keepFld, h]

theorem keepFld_ne (ob : Option Bool) (v : Fld) (h : ob ≠ some false) :
    keepFld ob v = v := by
  simp [keepFld, h]

theorem getFld_filter (lf : LogFields) (d : TraceData) (k : Key) :
    (filterTraceData lf d).getFld k = keepFld (lfGet lf k) (d.getFld k) := by
  cases k <;> rfl

theorem applyRedaction_isSome (red : Option RedactFn) (p : Option Val) :
    (applyRedaction red p).isSome = p.isSome := by
  match red, p with
  | none, p => simp [applyRedaction]
  | some f, none => simp [applyRedaction]
  | some f, some v =>
    cases v <;> simp only [applyRedaction, Option.isSome] <;>
      first
        | rfl
        | (rename_i v'; cases hfv : f _ <;> simp [hfv])

theorem multiExportAux_fst (r : TraceData) (sinks : List SinkBeh) (i : Nat) :
    (multiExportAux r sinks i).1 = sinks.map (fun sink => (sink r).1) := by
  induction sinks generalizing i with
  | nil => rfl
  | cons sink rest ih =>
    simp only [multiExportAux, List.map_cons]
    cases hsr : sink r with
    | mk recs err => simp [hsr, ih]

theorem multiExportAux_snd (r : TraceData) (sinks : List SinkBeh) (i : Nat) :
    (multiExportAux r sinks i).2 =
      (List.enumFrom i sinks).filterMap
        (fun p => ((p.2 r).2).map (fun e => MultiLog.mk (p.1 + 1) e)) := by
  induction sinks generalizing i with
  | nil => rfl
  | cons sink rest ih =>
    simp only [multiExportAux, List.enumFrom, List.filterMap_cons]
    cases hsr : sink r with
    | mk recs err =>
      cases err <;> simp [hsr, ih]

/-- C5: the fan-out dispatcher invokes every configured sink's `export` with
the record — each sink's outcome is exactly what that sink alone does with
the record, independent of the other sinks — settles only after all sinks
have been invoked, logs each failure individually under the sink's 1-based
positional index, and lets no exception escape (its result carries the caught
failures instead of propagating them).  In particular, with sinks
`[A(throws), B(succeeds)]`, B still receives the record and the single log
entry names sink index 1. -/
theorem C5_fanout_isolation (sinks : List SinkBeh) (r : TraceData) :
    (multiAdapterExport sinks r).1 = sinks.map (fun sink => (sink r).1)
  ∧ (multiAdapterExport sinks r).1.length = sinks.length
  ∧ (multiAdapterExport sinks r).2 =
      sinks.enum.filterMap
        (fun p => ((p.2 r).2).map (fun e => MultiLog.mk (p.1 + 1) e))
  ∧ (multiAdapterExport [throwingSink, storingSink] sampleRecord).1
      = [[], [sampleRecord]]
  ∧ (multiAdapterExport [throwingSink, storingSink] sampleRecord).2
      = [{ index := 1, msg := "sink A failed" }] := by
  refine ⟨multiExportAux_fst r sinks 0, ?_, ?_, rfl, rfl⟩
  · rw [multiAdapterExport, multiExportAux_fst]
    exact List.length_map sinks _
  · exact multiExportAux_snd r sinks 0

/-- C6: a throw from the configured redaction function is caught and the
original unredacted payload is kept, and the record builders apply redaction
independently to the request payload (`message.params`, resp. the stored
request record's payload) and to the response payload (`message.result`). -/
theorem C6_redaction_failure_keeps_original
    (f : RedactFn) (v : Val) (e : String)
    (cfg : Cfg) (m : Message) (extra : Option Extra) (tr : Option Transport)
    (t : Nat) (rd : TraceData) (dur : Int)
    (hf : f v = .error e) :
    applyRedaction (some f) (some v) = some v
  ∧ (createTraceDataRaw cfg m extra tr t).request
      = fldOf (applyRedaction cfg.redact m.params)
  ∧ (createTraceDataRaw cfg m extra tr t).response
      = fldOf (applyRedaction cfg.redact m.result)
  ∧ (createCombinedRaw cfg rd m dur t).request
      = fldOf (applyRedaction cfg.redact (fldVal? rd.request))
  ∧ (createCombinedRaw cfg rd m dur t).response
      = fldOf (applyRedaction cfg.redact m.result) := by
  refine ⟨?_, rfl, rfl, rfl, rfl⟩
  cases v <;> simp [applyRedaction, hf]

/-- C6 witness: a redaction function that always throws leaves a concrete
payload untouched. -/
theorem C6_redaction_failure_keeps_original_witness :
    applyRedaction (some (fun _ => .error "boom")) (some (.vobj [("ssn", .vstr "123")]))
      = some (.vobj [("ssn", .vstr "123")])
  ∧ (createTraceDataRaw defaultCfg {} none none 0).request
      = fldOf (applyRedaction defaultCfg.redact ({} : Message).params)
  ∧ (createTraceDataRaw defaultCfg {} none none 0).response
      = fldOf (applyRedaction defaultCfg.redact ({} : Message).result)
  ∧ (createCombinedRaw defaultCfg sampleRecord {} 0 0).request
      = fldOf (applyRedaction defaultCfg.redact (fldVal? sampleRecord.request))
  ∧ (createCombinedRaw defaultCfg sampleRecord {} 0 0).response
      = fldOf (applyRedaction defaultCfg.redact ({} : Message).result) :=
  C6_redaction_failure_keeps_original (fun _ => .error "boom")
    (.vobj [("ssn", .vstr "123")]) "boom" defaultCfg {} none none 0 sampleRecord 0 rfl

/-- C7: field filtering is idempotent; the constructor's default enable map
leaves every field enabled (filtering with it is the identity); and a field
set to `false` in the enable map is absent from the built record whatever its
value, uniformly for request/notification records (`createTraceData`) and for
combined request+response records (`createCombinedTraceData`), both of which
are exactly the raw built object passed through `filterTraceData` as the
last step. -/
theorem C7_field_filtering
    (lf : LogFields) (d : TraceData) (k : Key)
    (cfg : Cfg) (m : Message) (extra : Option Extra) (tr : Option Transport)
    (t : Nat) (rd : TraceData) (dur : Int) :
    filterTraceData lf (filterTraceData lf d) = filterTraceData lf d
  ∧ filterTraceData (mergeLogFields {}) d = d
  ∧ (lfGet cfg.logFields k = some false →
      (createTraceData cfg m extra tr t).getFld k = .absent)
  ∧ (lfGet cfg.logFields k = some false →
      (createCombinedTraceData cfg rd m dur t).getFld k = .absent)
  ∧ createTraceData cfg m extra tr t
      = filterTraceData cfg.logFields (createTraceDataRaw cfg m extra tr t)
  ∧ createCombinedTraceData cfg rd m dur t
      = filterTraceData cfg.logFields (createCombinedRaw cfg rd m dur t) := by
  refine ⟨?_, ?_, ?_, ?_, rfl, rfl⟩
  · simp [filterTraceData, keepFld_idem]
  · simp [filterTraceData, mergeLogFields, keepFld]
  · intro h
    simp [createTraceData, getFld_filter, h, keepFld]
  · intro h
    simp [createCombinedTraceData, getFld_filter, h, keepFld]

/-- C7 witness: filtering a concrete record with `duration` disabled removes
the field, filtering twice equals filtering once, and the defaults keep
everything. -/
theorem C7_field_filtering_witness :
    filterTraceData { duration := some false } (filterTraceData { duration := some false } sampleRecord)
      = filterTraceData { duration := some false } sampleRecord
  ∧ filterTraceData (mergeLogFields {}) sampleRecord = sampleRecord
  ∧ (lfGet durationOffCfg.logFields .duration = some false →
      (createTraceData durationOffCfg {} none none 0).getFld .duration = .absent)
  ∧ (lfGet durationOffCfg.logFields .duration = some false →
      (createCombinedTraceData durationOffCfg sampleRecord {} 7 0).getFld .duration = .absent)
  ∧ createTraceData durationOffCfg {} none none 0
      = filterTraceData durationOffCfg.logFields (createTraceDataRaw durationOffCfg {} none none 0)
  ∧ createCombinedTraceData durationOffCfg sampleRecord {} 7 0
      = filterTraceData durationOffCfg.logFields (createCombinedRaw durationOffCfg sampleRecord {} 7 0) :=
  C7_field_filtering { duration := some false } sampleRecord .duration
    durationOffCfg {} none none 0 sampleRecord 7

/-- C8 helper: feeding records through the buffering sink's `export` fills
the buffer up to the free space and drops (with one warning each) exactly the
arrivals beyond it. -/
theorem contexaExportAll_spec (rs : List TraceData) (s : ContexaSt)
    (h : s.buffer.length ≤ s.bufferSize) :
    (contexaExportAll s rs).1.buffer
        = s.buffer ++ rs.take (s.bufferSize - s.buffer.length)
  ∧ (contexaExportAll s rs).1.bufferSize = s.bufferSize
  ∧ (contexaExportAll s rs).2 = rs.length - (s.bufferSize - s.buffer.length) := by
  induction rs generalizing s with
  | nil => simp [contexaExportAll]
  | cons r rs ih =>
    by_cases hlt : s.buffer.length < s.bufferSize
    · have hstep : contexaExport s r
          = (contexaStartWorker { s with buffer := s.buffer ++ [r] }, false) := by
        simp [contexaExport, hlt]
      have hbuf : (contexaStartWorker { s with buffer := s.buffer ++ [r] }).buffer
          = s.buffer ++ [r] := by
        simp [contexaStartWorker]
        split <;> rfl
      have hcap : (contexaStartWorker { s with buffer := s.buffer ++ [r] }).bufferSize
          = s.bufferSize := by
        simp [contexaStartWorker]
        split <;> rfl
      have hle : (contexaStartWorker { s with buffer := s.buffer ++ [r] }).buffer.length
          ≤ (contexaStartWorker { s with buffer := s.buffer ++ [r] }).bufferSize := by
        rw [hbuf, hcap]
        simp only [List.length_append, List.length_cons, List.length_nil]
        omega
      obtain ⟨ih1, ih2, ih3⟩ := ih _ hle
      simp only [hbuf, hcap] at ih1 ih2 ih3
      simp only [contexaExportAll, hstep]
      refine ⟨?_, ih2, ?_⟩
      · rw [ih1]
        have hstep2 : s.bufferSize - (s.buffer ++ [r]).length
            = (s.bufferSize - s.buffer.length) - 1 := by
          simp only [List.length_append, List.length_cons, List.length_nil]
          omega
        rw [hstep2, List.append_assoc]
        congr 1
        cases hk : s.bufferSize - s.buffer.length with
        | zero => omega
        | succ n => simp
      · rw [ih3]
        simp
        omega
    · have heq : s.buffer.length = s.bufferSize := by omega
      have hstep : contexaExport s r = (s, true) := by
        simp [contexaExport, hlt]
      obtain ⟨ih1, ih2, ih3⟩ := ih s h
      simp only [contexaExportAll, hstep]
      refine ⟨?_, ih2, ?_⟩
      · rw [ih1, heq]
        simp
      · rw [ih3, heq]
        simp
        omega

/-- C8: the buffering sink's queue never exceeds its capacity — `export`
appends when strictly under capacity and otherwise drops the new arrival with
one warning — so feeding `cap + 1` records into a fresh adapter of capacity
`cap` before any drain leaves exactly the first `cap` records queued and logs
exactly one drop warning; the configured capacity defaults to `1000`. -/
theorem C8_buffer_bound
    (s : ContexaSt) (r : TraceData) (cap : Nat) (rs : List TraceData)
    (hinv : s.buffer.length ≤ s.bufferSize)
    (hlen : rs.length = cap + 1) :
    (contexaExport s r).1.buffer.length ≤ s.bufferSize
  ∧ (contexaExport s r).1.bufferSize = s.bufferSize
  ∧ (contexaExportAll (mkContexaSt (some cap)) rs).1.buffer = rs.take cap
  ∧ (contexaExportAll (mkContexaSt (some cap)) rs).1.buffer.length = cap
  ∧ (contexaExportAll (mkContexaSt (some cap)) rs).2 = 1
  ∧ (mkContexaSt none).bufferSize = 1000 := by
  have hfresh : (mkContexaSt (some cap)).buffer.length ≤ (mkContexaSt (some cap)).bufferSize := by
    simp [mkContexaSt]
  obtain ⟨hb, hc, hw⟩ := contexaExportAll_spec rs (mkContexaSt (some cap)) hfresh
  refine ⟨?_, ?_, ?_, ?_, ?_, rfl⟩
  · by_cases hlt : s.buffer.length < s.bufferSize
    · have : contexaExport s r
          = (contexaStartWorker { s with buffer := s.buffer ++ [r] }, false) := by
        simp [contexaExport, hlt]
      rw [this]
      have hbuf : (contexaStartWorker { s with buffer := s.buffer ++ [r] }).buffer
          = s.buffer ++ [r] := by
        simp only [contexaStartWorker]
        split <;> rfl
      rw [hbuf]
      simp only [List.length_append, List.length_cons, List.length_nil]
      omega
    · have : contexaExport s r = (s, true) := by simp [contexaExport, hlt]
      rw [this]
      exact hinv
  · by_cases hlt : s.buffer.length < s.bufferSize
    · have : contexaExport s r
          = (contexaStartWorker { s with buffer := s.buffer ++ [r] }, false) := by
        simp [contexaExport, hlt]
      rw [this]
      simp only [contexaStartWorker]
      split <;> rfl
    · have : contexaExport s r = (s, true) := by simp [contexaExport, hlt]
      rw [this]
  · rw [hb]
    simp [mkContexaSt]
  · rw [hb]
    simp [mkContexaSt]
    omega
  · rw [hw]
    simp [mkContexaSt]
    omega

/-- C8 witness: a capacity-2 adapter fed three records keeps the first two
and warns once, and one `export` on a within-capacity state stays bounded. -/
theorem C8_buffer_bound_witness :
    (contexaExport (mkContexaSt (some 2)) sampleRecord).1.buffer.length
        ≤ (mkContexaSt (some 2)).bufferSize
  ∧ (contexaExport (mkContexaSt (some 2)) sampleRecord).1.bufferSize
        = (mkContexaSt (some 2)).bufferSize
  ∧ (contexaExportAll (mkContexaSt (some 2)) [sampleRecord, sampleRecord, sampleRecord]).1.buffer
        = [sampleRecord, sampleRecord, sampleRecord].take 2
  ∧ (contexaExportAll (mkContexaSt (some 2)) [sampleRecord, sampleRecord, sampleRecord]).1.buffer.length = 2
  ∧ (contexaExportAll (mkContexaSt (some 2)) [sampleRecord, sampleRecord, sampleRecord]).2 = 1
  ∧ (mkContexaSt none).bufferSize = 1000 :=
  C8_buffer_bound (mkContexaSt (some 2)) sampleRecord 2
    [sampleRecord, sampleRecord, sampleRecord] (by simp [mkContexaSt]) rfl

/-- C2: each wrapped transport hook (onmessage and send) runs the tracing
step first inside the `try`, always invokes the previously-installed hook
afterwards — whether tracing succeeded or threw — passes it the message
unaltered, and (provided the original hook itself does not throw) lets no
error of the tracing pipeline escape into the transport's control flow. -/
theorem C2_interceptor_isolation
    (traceIn traceOut : Message → Except String St)
    (o sendo : Message → Except String Unit) (m : Message)
    (ho : o m = .ok ()) (hsend : sendo m = .ok ()) :
    (wrappedOnMessage traceIn (some o) m).events.head? = some .traced
  ∧ HookEv.origCalled m ∈ (wrappedOnMessage traceIn (some o) m).events
  ∧ (∀ x, HookEv.origCalled x ∈ (wrappedOnMessage traceIn (some o) m).events → x = m)
  ∧ (wrappedOnMessage traceIn (some o) m).thrown = none
  ∧ (wrappedSend traceOut sendo m).events.head? = some .traced
  ∧ HookEv.origCalled m ∈ (wrappedSend traceOut sendo m).events
  ∧ (∀ x, HookEv.origCalled x ∈ (wrappedSend traceOut sendo m).events → x = m)
  ∧ (wrappedSend traceOut sendo m).thrown = none := by
  have h1 : wrappedOnMessage traceIn (some o) m
      = { events := [.traced, .origCalled m], thrown := none } := by
    cases htr : traceIn m <;> simp [wrappedOnMessage, htr, ho]
  have h2 : wrappedSend traceOut sendo m
      = { events := [.traced, .origCalled m], thrown := none } := by
    cases htr : traceOut m <;> simp [wrappedSend, htr, hsend]
  rw [h1, h2]
  refine ⟨rfl, ?_, ?_, rfl, rfl, ?_, ?_, rfl⟩
  · simp
  · intro x hx
    simp at hx
    exact hx
  · simp
  · intro x hx
    simp at hx
    exact hx

/-- C2 witness: concrete hooks on a concrete message — one throwing tracing
step and one succeeding one — both leave the original hook invoked exactly
with the message and no escaping error. -/
theorem C2_interceptor_isolation_witness :
    (wrappedOnMessage (fun _ => .error "trace failed") (some (fun _ => .ok ())) {}).events.head? = some .traced
  ∧ HookEv.origCalled {} ∈ (wrappedOnMessage (fun _ => .error "trace failed") (some (fun _ => .ok ())) {}).events
  ∧ (∀ x, HookEv.origCalled x ∈ (wrappedOnMessage (fun _ => .error "trace failed") (some (fun _ => .ok ())) {}).events → x = {})
  ∧ (wrappedOnMessage (fun _ => .error "trace failed") (some (fun _ => .ok ())) {}).thrown = none
  ∧ (wrappedSend (fun _ => .ok {}) (fun _ => .ok ()) {}).events.head? = some .traced
  ∧ HookEv.origCalled {} ∈ (wrappedSend (fun _ => .ok {}) (fun _ => .ok ()) {}).events
  ∧ (∀ x, HookEv.origCalled x ∈ (wrappedSend (fun _ => .ok {}) (fun _ => .ok ()) {}).events → x = {})
  ∧ (wrappedSend (fun _ => .ok {}) (fun _ => .ok ()) {}).thrown = none :=
  C2_interceptor_isolation (fun _ => .error "trace failed") (fun _ => .ok {})
    (fun _ => .ok ()) (fun _ => .ok ()) {} rfl rfl

/-- C9 counterexample: the claimed capture-time invariant fails on the code.
A params-less notification (`{method:"notifications/initialized"}`) yields a
record with neither the request nor the response payload populated, and a
notification-shaped message that happens to carry both `params` and `result`
yields a record with both populated even though it is not a combined
request+response record. -/
theorem C9_payload_cex :
    (populatedF ((createTraceData defaultCfg notifNoParams none none 0).getFld .request) = false
  ∧ populatedF ((createTraceData defaultCfg notifNoParams none none 0).getFld .response) = false)
  ∧ (isJSONRPCNotification notifBoth = true
  ∧ populatedF ((createTraceData defaultCfg notifBoth none none 0).getFld .request) = true
  ∧ populatedF ((createTraceData defaultCfg notifBoth none none 0).getFld .response) = true) :=
  ⟨⟨rfl, rfl⟩, rfl, rfl, rfl⟩

/-- C9 (amended): at capture time the request payload field of a
notification's record is populated exactly when the message carries `params`,
and the response payload field exactly when it carries a `result`; in
particular an ordinary notification (params, no result) populates exactly the
request payload. -/
theorem C9_payload_amended
    (cfg : Cfg) (m : Message) (extra : Option Extra) (tr : Option Transport)
    (t : Nat)
    (hnotif : isJSONRPCNotification m = true)
    (hreq : lfGet cfg.logFields .request ≠ some false)
    (hresp : lfGet cfg.logFields .response ≠ some false) :
    populatedF ((createTraceData cfg m extra tr t).getFld .request) = m.params.isSome
  ∧ populatedF ((createTraceData cfg m extra tr t).getFld .response) = m.result.isSome := by
  constructor
  · rw [createTraceData, getFld_filter, keepFld_ne _ _ hreq]
    show populatedF (fldOf (applyRedaction cfg.redact m.params)) = _
    rw [populatedF_fldOf, applyRedaction_isSome]
  · rw [createTraceData, getFld_filter, keepFld_ne _ _ hresp]
    show populatedF (fldOf (applyRedaction cfg.redact m.result)) = _
    rw [populatedF_fldOf, applyRedaction_isSome]

/-- C9 witness: a progress notification carrying params and no result
populates exactly the request payload. -/
theorem C9_payload_amended_witness :
    populatedF ((createTraceData defaultCfg notifProgress none none 5).getFld .request)
      = notifProgress.params.isSome
  ∧ populatedF ((createTraceData defaultCfg notifProgress none none 5).getFld .response)
      = notifProgress.result.isSome :=
  C9_payload_amended defaultCfg notifProgress none none 5 rfl
    (by simp [defaultCfg, mergeLogFields, lfGet])
    (by simp [defaultCfg, mergeLogFields, lfGet])

/-- C4 (documented bypass header is not implemented): a message accompanied
by a truthy `x-ignore-traces` header still goes through the whole tracing
pipeline — an incoming request still creates a pending entry and an incoming
notification is still exported — contradicting the repository's documented
request-bypass behaviour. -/
theorem C4_bypass_header_ignored :
    (handleIncomingMessage defaultCfg {} reqMsg bypassExtra none 100).pending.length = 1
  ∧ (handleIncomingMessage defaultCfg {} notifMsg bypassExtra none 100).exported.length = 1 :=
  ⟨rfl, rfl⟩

/-- C1: when a response with id `i` is sent while the pending entry for `i`
still exists, exactly one combined record is exported: it is the raw combined
object passed through field filtering again, it inherits method, entity name
and session/client/user identity from the stored request record (for every
enabled field), carries the (redacted) response payload, and its duration is
the response time minus the stored start time; the pending entry is deleted
and its eviction timer cancelled and its handle removed (provided the
adapter's `export` does not throw, as the sink contract requires); and no
record is ever exported for a request-shaped message alone. -/
theorem C1_response_correlation
    (cfg : Cfg) (s : St) (m : Message) (i : RpcId) (tr : Option Transport)
    (t : Nat) (p : PendingEntry) (dur : Int) (combined : TraceData)
    (hid : m.id = some i)
    (hresp : (m.result.isSome || m.error.isSome) = true)
    (hp : alookup s.pending i = some p)
    (hdur : dur = (t : Int) - (p.startTime : Int))
    (hcomb : combined = createCombinedTraceData cfg p.requestData m dur t)
    (hthrow : cfg.adapterThrows combined = false) :
    (handleOutgoingMessage cfg s m tr t).exported = s.exported ++ [combined]
  ∧ combined = filterTraceData cfg.logFields (createCombinedRaw cfg p.requestData m dur t)
  ∧ alookup (handleOutgoingMessage cfg s m tr t).pending i = none
  ∧ alookup (handleOutgoingMessage cfg s m tr t).timeouts i = none
  ∧ (∀ tid, alookup s.timeouts i = some tid →
      (handleOutgoingMessage cfg s m tr t).timers
        = s.timers.filter (fun tm => tm.tid != tid))
  ∧ (lfGet cfg.logFields .method ≠ some false →
      fldVal? (combined.getFld .method) = fldVal? (p.requestData.getFld .method))
  ∧ (lfGet cfg.logFields .entity_name ≠ some false →
      fldVal? (combined.getFld .entity_name) = fldVal? (p.requestData.getFld .entity_name))
  ∧ (lfGet cfg.logFields .session_id ≠ some false →
      fldVal? (combined.getFld .session_id) = fldVal? (p.requestData.getFld .session_id))
  ∧ (lfGet cfg.logFields .client_id ≠ some false →
      fldVal? (combined.getFld .client_id) = fldVal? (p.requestData.getFld .client_id))
  ∧ (lfGet cfg.logFields .user_id ≠ some false →
      fldVal? (combined.getFld .user_id) = fldVal? (p.requestData.getFld .user_id))
  ∧ (lfGet cfg.logFields .user_name ≠ some false →
      fldVal? (combined.getFld .user_name) = fldVal? (p.requestData.getFld .user_name))
  ∧ (lfGet cfg.logFields .user_email ≠ some false →
      fldVal? (combined.getFld .user_email) = fldVal? (p.requestData.getFld .user_email))
  ∧ (lfGet cfg.logFields .response ≠ some false →
      fldVal? (combined.getFld .response) = applyRedaction cfg.redact m.result)
  ∧ (lfGet cfg.logFields .duration ≠ some false →
      fldVal? (combined.getFld .duration) = some (.vnum dur))
  ∧ (∀ m2 extra2 tr2 t2, isJSONRPCRequest m2 = true →
      (handleIncomingMessage cfg s m2 extra2 tr2 t2).exported = s.exported) := by
  refine ⟨?_, ?_, ?_, ?_, ?_, ?_, ?_, ?_, ?_, ?_, ?_, ?_, ?_, ?_, ?_⟩
  · cases hti : alookup s.timeouts i with
    | none =>
      simp [handleOutgoingMessage, isJSONRPCResponse, hid, hresp,
        handleOutgoingResponse, hp, hti, ← hdur, ← hcomb, hthrow]
    | some tid =>
      simp [handleOutgoingMessage, isJSONRPCResponse, hid, hresp,
        handleOutgoingResponse, hp, hti, ← hdur, ← hcomb, hthrow]
  · rw [hcomb, createCombinedTraceData]
  · cases hti : alookup s.timeouts i with
    | none =>
      simp [handleOutgoingMessage, isJSONRPCResponse, hid, hresp,
        handleOutgoingResponse, hp, hti, ← hdur, ← hcomb, hthrow,
        alookup_aerase_self]
    | some tid =>
      simp [handleOutgoingMessage, isJSONRPCResponse, hid, hresp,
        handleOutgoingResponse, hp, hti, ← hdur, ← hcomb, hthrow,
        alookup_aerase_self]
  · cases hti : alookup s.timeouts i with
    | none =>
      simp [handleOutgoingMessage, isJSONRPCResponse, hid, hresp,
        handleOutgoingResponse, hp, hti, ← hdur, ← hcomb, hthrow]
    | some tid =>
      simp [handleOutgoingMessage, isJSONRPCResponse, hid, hresp,
        handleOutgoingResponse, hp, hti, ← hdur, ← hcomb, hthrow,
        alookup_aerase_self]
  · intro tid htid
    cases hti : alookup s.timeouts i with
    | none => rw [hti] at htid; exact absurd htid (by simp)
    | some tid2 =>
      rw [hti] at htid
      injection htid with htid
      subst htid
      simp [handleOutgoingMessage, isJSONRPCResponse, hid, hresp,
        handleOutgoingResponse, hp, hti, ← hdur, ← hcomb, hthrow]
  · intro h
    rw [hcomb, createCombinedTraceData, getFld_filter, keepFld_ne _ _ h]
    show fldVal? (fldOf (fldVal? p.requestData.method)) = _
    rw [fldVal?_fldOf]
    rfl
  · intro h
    rw [hcomb, createCombinedTraceData, getFld_filter, keepFld_ne _ _ h]
    show fldVal? (fldOf (fldVal? p.requestData.entity_name)) = _
    rw [fldVal?_fldOf]
    rfl
  · intro h
    rw [hcomb, createCombinedTraceData, getFld_filter, keepFld_ne _ _ h]
    show fldVal? (fldOf (fldVal? p.requestData.session_id)) = _
    rw [fldVal?_fldOf]
    rfl
  · intro h
    rw [hcomb, createCombinedTraceData, getFld_filter, keepFld_ne _ _ h]
    show fldVal? (fldOf (fldVal? p.requestData.client_id)) = _
    rw [fldVal?_fldOf]
    rfl
  · intro h
    rw [hcomb, createCombinedTraceData, getFld_filter, keepFld_ne _ _ h]
    show fldVal? (fldOf (fldVal? p.requestData.user_id)) = _
    rw [fldVal?_fldOf]
    rfl
  · intro h
    rw [hcomb, createCombinedTraceData, getFld_filter, keepFld_ne _ _ h]
    show fldVal? (fldOf (fldVal? p.requestData.user_name)) = _
    rw [fldVal?_fldOf]
    rfl
  · intro h
    rw [hcomb, createCombinedTraceData, getFld_filter, keepFld_ne _ _ h]
    show fldVal? (fldOf (fldVal? p.requestData.user_email)) = _
    rw [fldVal?_fldOf]
    rfl
  · intro h
    rw [hcomb, createCombinedTraceData, getFld_filter, keepFld_ne _ _ h]
    show fldVal? (fldOf (applyRedaction cfg.redact m.result)) = _
    rw [fldVal?_fldOf]
  · intro h
    rw [hcomb, createCombinedTraceData, getFld_filter, keepFld_ne _ _ h]
    rfl
  · intro m2 extra2 tr2 t2 hreq2
    have hidm2 : m2.id.isSome = true := by
      simp [isJSONRPCRequest] at hreq2
      exact hreq2.2
    obtain ⟨j, hj⟩ := Option.isSome_iff_exists.mp hidm2
    simp [handleIncomingMessage, hreq2, handleRequest, hj]

/-- C1 witness: the concrete `tools/call` request followed 10 ticks later by
its response yields exactly one combined record with duration 10, and clears
the pending tables. -/
theorem C1_response_correlation_witness :
    (handleOutgoingMessage defaultCfg sReq respMsg none 110).exported
        = sReq.exported ++ [combinedReq]
  ∧ combinedReq = filterTraceData defaultCfg.logFields
        (createCombinedRaw defaultCfg pReq.requestData respMsg 10 110)
  ∧ alookup (handleOutgoingMessage defaultCfg sReq respMsg none 110).pending (.num 1) = none
  ∧ alookup (handleOutgoingMessage defaultCfg sReq respMsg none 110).timeouts (.num 1) = none
  ∧ (∀ tid, alookup sReq.timeouts (.num 1) = some tid →
      (handleOutgoingMessage defaultCfg sReq respMsg none 110).timers
        = sReq.timers.filter (fun tm => tm.tid != tid))
  ∧ (lfGet defaultCfg.logFields .method ≠ some false →
      fldVal? (combinedReq.getFld .method) = fldVal? (pReq.requestData.getFld .method))
  ∧ (lfGet defaultCfg.logFields .entity_name ≠ some false →
      fldVal? (combinedReq.getFld .entity_name) = fldVal? (pReq.requestData.getFld .entity_name))
  ∧ (lfGet defaultCfg.logFields .session_id ≠ some false →
      fldVal? (combinedReq.getFld .session_id) = fldVal? (pReq.requestData.getFld .session_id))
  ∧ (lfGet defaultCfg.logFields .client_id ≠ some false →
      fldVal? (combinedReq.getFld .client_id) = fldVal? (pReq.requestData.getFld .client_id))
  ∧ (lfGet defaultCfg.logFields .user_id ≠ some false →
      fldVal? (combinedReq.getFld .user_id) = fldVal? (pReq.requestData.getFld .user_id))
  ∧ (lfGet defaultCfg.logFields .user_name ≠ some false →
      fldVal? (combinedReq.getFld .user_name) = fldVal? (pReq.requestData.getFld .user_name))
  ∧ (lfGet defaultCfg.logFields .user_email ≠ some false →
      fldVal? (combinedReq.getFld .user_email) = fldVal? (pReq.requestData.getFld .user_email))
  ∧ (lfGet defaultCfg.logFields .response ≠ some false →
      fldVal? (combinedReq.getFld .response) = applyRedaction defaultCfg.redact respMsg.result)
  ∧ (lfGet defaultCfg.logFields .duration ≠ some false →
      fldVal? (combinedReq.getFld .duration) = some (.vnum 10))
  ∧ (∀ m2 extra2 tr2 t2, isJSONRPCRequest m2 = true →
      (handleIncomingMessage defaultCfg sReq m2 extra2 tr2 t2).exported = sReq.exported) :=
  C1_response_correlation defaultCfg sReq respMsg (.num 1) none 110 pReq 10 combinedReq
    rfl rfl rfl (by decide) rfl rfl

/-- C10: a second request with an id that is already pending overwrites both
the pending entry and the stored timeout handle without throwing and without
cancelling the first request's eviction timer; that first timer remains
scheduled, is due before the second request's own five-minute window elapses,
and when it fires its callback deletes whatever pending entry and timeout
handle are then stored under the id — here the newer request's. -/
theorem C10_duplicate_request_overwrite
    (cfg : Cfg) (s : St) (m : Message) (i : RpcId)
    (extra : Option Extra) (tr : Option Transport)
    (p0 : PendingEntry) (tm1 : TimerInfo) (t1 t2 : Nat)
    (hreq : isJSONRPCRequest m = true) (hid : m.id = some i)
    (hp : alookup s.pending i = some p0)
    (htm : tm1 ∈ s.timers) (hreqid : tm1.reqId = i)
    (hhandle : alookup s.timeouts i = some tm1.tid)
    (hfresh : tm1.tid < s.nextTimer)
    (hfire : tm1.fireAt = t1 + evictionWindowMs)
    (ht12 : t1 < t2) :
    alookup (handleIncomingMessage cfg s m extra tr t2).pending i
        = some { startTime := t2, requestData := createTraceData cfg m extra tr t2,
                 requestExtra := extra, transport := tr }
  ∧ alookup (handleIncomingMessage cfg s m extra tr t2).timeouts i = some s.nextTimer
  ∧ s.nextTimer ≠ tm1.tid
  ∧ tm1 ∈ (handleIncomingMessage cfg s m extra tr t2).timers
  ∧ (handleIncomingMessage cfg s m extra tr t2).exported = s.exported
  ∧ tm1.fireAt < t2 + evictionWindowMs
  ∧ alookup (fireTimer (handleIncomingMessage cfg s m extra tr t2) tm1).pending i = none
  ∧ alookup (fireTimer (handleIncomingMessage cfg s m extra tr t2) tm1).timeouts i = none := by
  have hstep : handleIncomingMessage cfg s m extra tr t2
      = { s with
          pending := ainsert s.pending i
            { startTime := t2, requestData := createTraceData cfg m extra tr t2,
              requestExtra := extra, transport := tr }
          timers := s.timers ++ [{ tid := s.nextTimer, fireAt := t2 + evictionWindowMs, reqId := i }]
          timeouts := ainsert s.timeouts i s.nextTimer
          nextTimer := s.nextTimer + 1 } := by
    simp [handleIncomingMessage, hreq, handleRequest, hid]
  rw [hstep]
  have htm' : tm1 ∈ s.timers ++
      [{ tid := s.nextTimer, fireAt := t2 + evictionWindowMs, reqId := i : TimerInfo }] :=
    List.mem_append_left _ htm
  refine ⟨alookup_ainsert_self _ _ _, alookup_ainsert_self _ _ _, by omega, htm', rfl,
    by omega, ?_, ?_⟩
  · simp only [fireTimer, htm', if_pos, hreqid]
    exact alookup_aerase_self _ _
  · simp only [fireTimer, htm', if_pos, hreqid]
    exact alookup_aerase_self _ _

/-- C10 witness: replaying the duplicate-id scenario concretely from the
state `sReq`. -/
theorem C10_duplicate_request_overwrite_witness :
    alookup (handleIncomingMessage defaultCfg sReq reqMsg2 none none 150).pending (.num 1)
        = some { startTime := 150, requestData := createTraceData defaultCfg reqMsg2 none none 150,
                 requestExtra := none, transport := none }
  ∧ alookup (handleIncomingMessage defaultCfg sReq reqMsg2 none none 150).timeouts (.num 1)
        = some sReq.nextTimer
  ∧ sReq.nextTimer ≠ tmReq.tid
  ∧ tmReq ∈ (handleIncomingMessage defaultCfg sReq reqMsg2 none none 150).timers
  ∧ (handleIncomingMessage defaultCfg sReq reqMsg2 none none 150).exported = sReq.exported
  ∧ tmReq.fireAt < 150 + evictionWindowMs
  ∧ alookup (fireTimer (handleIncomingMessage defaultCfg sReq reqMsg2 none none 150) tmReq).pending (.num 1) = none
  ∧ alookup (fireTimer (handleIncomingMessage defaultCfg sReq reqMsg2 none none 150) tmReq).timeouts (.num 1) = none :=
  C10_duplicate_request_overwrite defaultCfg sReq reqMsg2 (.num 1) none none
    pReq tmReq 100 150 rfl rfl rfl (by simp [sReq, handleIncomingMessage,
      handleRequest, reqMsg, tmReq, isJSONRPCRequest])
    rfl rfl (by decide) rfl (by decide)

theorem alookup_aerase_some {α : Type} (l : List (RpcId × α)) (k k' : RpcId) (v : α)
    (h : alookup (aerase l k) k' = some v) : alookup l k' = some v := by
  by_cases hk : k' = k
  · subst hk
    rw [alookup_aerase_self] at h
    exact absurd h (by simp)
  · rwa [alookup_aerase_ne _ _ _ hk] at h

/-- Any event-loop step that does not involve the in-flight id `i` — no
message carrying id `i` and no firing of an eviction timer targeted at `i` —
leaves the pending entry for `i`, its scheduled timer and its stored handle
untouched. -/
theorem step_preserves_evtimer
    (cfg : Cfg) (i : RpcId) (e : PendingEntry) (tm : TimerInfo) (s : St) (ev : Ev)
    (hP : EvTimerState i e tm s) (hni : ¬ involves i ev) :
    EvTimerState i e tm (step cfg s ev) := by
  obtain ⟨hpend, hcount, htm, hreqid, hto, htid, huniq⟩ := hP
  cases ev with
  | incoming m extra tr t =>
    have hmid : m.id ≠ some i := hni
    by_cases hreq : isJSONRPCRequest m = true
    · cases hj : m.id with
      | none =>
        simp only [step, handleIncomingMessage, hreq, if_true, handleRequest, hj]
        exact ⟨hpend, hcount, htm, hreqid, hto, htid, huniq⟩
      | some j =>
        have hji : j ≠ i := by
          intro hji
          exact hmid (by rw [hj, hji])
        have hstep : step cfg s (.incoming m extra tr t)
            = { s with
                pending := ainsert s.pending j
                  { startTime := t, requestData := createTraceData cfg m extra tr t,
                    requestExtra := extra, transport := tr }
                timers := s.timers ++
                  [{ tid := s.nextTimer, fireAt := t + evictionWindowMs, reqId := j }]
                timeouts := ainsert s.timeouts j s.nextTimer
                nextTimer := s.nextTimer + 1 } := by
          simp [step, handleIncomingMessage, hreq, handleRequest, hj]
        rw [hstep]
        refine ⟨?_, ?_, List.mem_append_left _ htm, hreqid, ?_,
          by show tm.tid < s.nextTimer + 1; omega, ?_⟩
        · rw [alookup_ainsert_ne _ _ _ _ (Ne.symm hji)]
          exact hpend
        · rw [countKey_ainsert_ne _ _ _ _ hji]
          exact hcount
        · rw [alookup_ainsert_ne _ _ _ _ (Ne.symm hji)]
          exact hto
        · intro j' td hj' hlook
          by_cases hjj : j' = j
          · subst hjj
            rw [alookup_ainsert_self] at hlook
            injection hlook with hlook
            omega
          · rw [alookup_ainsert_ne _ _ _ _ hjj] at hlook
            exact huniq j' td hj' hlook
    · by_cases hnot : isJSONRPCNotification m = true
      · simp only [step, handleIncomingMessage, hreq, hnot, if_false, if_true,
          Bool.false_eq_true, logMessage]
        exact ⟨hpend, hcount, htm, hreqid, hto, htid, huniq⟩
      · simp only [step, handleIncomingMessage, hreq, hnot, Bool.false_eq_true, if_false]
        exact ⟨hpend, hcount, htm, hreqid, hto, htid, huniq⟩
  | outgoing m tr t =>
    have hmid : m.id ≠ some i := hni
    by_cases hresp : isJSONRPCResponse m = true
    · cases hj : m.id with
      | none =>
        simp only [step, handleOutgoingMessage, hresp, if_true, handleOutgoingResponse, hj]
        exact ⟨hpend, hcount, htm, hreqid, hto, htid, huniq⟩
      | some j =>
        have hji : j ≠ i := by
          intro hji
          exact hmid (by rw [hj, hji])
        cases hpj : alookup s.pending j with
        | none =>
          simp only [step, handleOutgoingMessage, hresp, if_true,
            handleOutgoingResponse, hj, hpj]
          exact ⟨hpend, hcount, htm, hreqid, hto, htid, huniq⟩
        | some pj =>
          by_cases hth : cfg.adapterThrows
              (createCombinedTraceData cfg pj.requestData m
                ((t : Int) - (pj.startTime : Int)) t) = true
          · have hstep : step cfg s (.outgoing m tr t)
                = { s with exported := s.exported ++
                    [createCombinedTraceData cfg pj.requestData m
                      ((t : Int) - (pj.startTime : Int)) t] } := by
              simp [step, handleOutgoingMessage, hresp, handleOutgoingResponse, hj, hpj, hth]
            rw [hstep]
            exact ⟨hpend, hcount, htm, hreqid, hto, htid, huniq⟩
          · cases htj : alookup s.timeouts j with
            | none =>
              have hstep : step cfg s (.outgoing m tr t)
                  = { s with
                      exported := s.exported ++
                        [createCombinedTraceData cfg pj.requestData m
                          ((t : Int) - (pj.startTime : Int)) t]
                      pending := aerase s.pending j } := by
                simp [step, handleOutgoingMessage, hresp, handleOutgoingResponse,
                  hj, hpj, hth, htj]
              rw [hstep]
              refine ⟨?_, ?_, htm, hreqid, hto, htid, huniq⟩
              · rw [alookup_aerase_ne _ _ _ (Ne.symm hji)]
                exact hpend
              · rw [countKey_aerase_ne _ _ _ hji]
                exact hcount
            | some tidj =>
              have htidj : tidj ≠ tm.tid := huniq j tidj hji htj
              have hstep : step cfg s (.outgoing m tr t)
                  = { s with
                      exported := s.exported ++
                        [createCombinedTraceData cfg pj.requestData m
                          ((t : Int) - (pj.startTime : Int)) t]
                      pending := aerase s.pending j
                      timers := s.timers.filter (fun tm2 => tm2.tid != tidj)
                      timeouts := aerase s.timeouts j } := by
                simp [step, handleOutgoingMessage, hresp, handleOutgoingResponse,
                  hj, hpj, hth, htj]
              rw [hstep]
              refine ⟨?_, ?_, ?_, hreqid, ?_, htid, ?_⟩
              · rw [alookup_aerase_ne _ _ _ (Ne.symm hji)]
                exact hpend
              · rw [countKey_aerase_ne _ _ _ hji]
                exact hcount
              · refine List.mem_filter.mpr ⟨htm, ?_⟩
                simp [bne_iff_ne]
                exact fun h2 => htidj h2.symm
              · rw [alookup_aerase_ne _ _ _ (Ne.symm hji)]
                exact hto
              · intro j' td hj' hlook
                exact huniq j' td hj' (alookup_aerase_some _ _ _ _ hlook)
    · by_cases hnot : isJSONRPCNotification m = true
      · simp only [step, handleOutgoingMessage, hresp, hnot, if_false, if_true,
          Bool.false_eq_true, logMessage]
        exact ⟨hpend, hcount, htm, hreqid, hto, htid, huniq⟩
      · simp only [step, handleOutgoingMessage, hresp, hnot, Bool.false_eq_true, if_false]
        exact ⟨hpend, hcount, htm, hreqid, hto, htid, huniq⟩
  | fire tm2 =>
    have hr2 : tm2.reqId ≠ i := hni
    by_cases hmem : tm2 ∈ s.timers
    · have hstep : step cfg s (.fire tm2)
          = { s with
              timers := s.timers.erase tm2
              pending := aerase s.pending tm2.reqId
              timeouts := aerase s.timeouts tm2.reqId } := by
        simp [step, fireTimer, hmem]
      rw [hstep]
      have hne : tm ≠ tm2 := by
        intro heq
        rw [heq] at hreqid
        exact hr2 hreqid
      refine ⟨?_, ?_, ?_, hreqid, ?_, htid, ?_⟩
      · rw [alookup_aerase_ne _ _ _ (fun h2 => hr2 h2.symm)]
        exact hpend
      · rw [countKey_aerase_ne _ _ _ hr2]
        exact hcount
      · exact (List.mem_erase_of_ne hne).mpr htm
      · rw [alookup_aerase_ne _ _ _ (fun h2 => hr2 h2.symm)]
        exact hto
      · intro j' td hj' hlook
        exact huniq j' td hj' (alookup_aerase_some _ _ _ _ hlook)
    · simp only [step, fireTimer, hmem, if_false]
      exact ⟨hpend, hcount, htm, hreqid, hto, htid, huniq⟩

/-- Running any sequence of events none of which involves id `i` preserves
the in-flight invariant for `i`. -/
theorem run_preserves_evtimer
    (cfg : Cfg) (i : RpcId) (e : PendingEntry) (tm : TimerInfo) (s : St)
    (evs : List Ev)
    (hP : EvTimerState i e tm s) (hni : ∀ ev ∈ evs, ¬ involves i ev) :
    EvTimerState i e tm (run cfg s evs) := by
  induction evs generalizing s with
  | nil => exact hP
  | cons ev evs ih =>
    have h1 : ¬ involves i ev := hni ev (List.mem_cons_self ev evs)
    have h2 : ∀ ev2 ∈ evs, ¬ involves i ev2 := fun ev2 hmem => hni ev2 (List.mem_cons_of_mem _ hmem)
    exact ih (step cfg s ev) (step_preserves_evtimer cfg i e tm s ev hP h1) h2

theorem countKey_ainsert_fresh {α : Type} (l : List (RpcId × α)) (k : RpcId) (v : α)
    (h : alookup l k = none) : countKey (ainsert l k v) k = 1 := by
  induction l with
  | nil => simp [ainsert, countKey]
  | cons p l ih =>
    by_cases hp : p.1 = k
    · simp [alookup, hp] at h
    · simp [alookup, hp] at h
      simp [ainsert, countKey, hp, ih h]

/-- C3: a request placed in the pending table exports nothing and schedules a
5-minute eviction timer; across any further events that do not involve its id
(in particular, when no response with that id is intercepted), the entry and
timer persist unchanged, and when the eviction timer fires it removes both
the pending entry and its timeout handle, exports nothing, and returns the
pending-table entry count to its pre-request value. -/
theorem C3_eviction
    (cfg : Cfg) (s : St) (m : Message) (i : RpcId)
    (extra : Option Extra) (tr : Option Transport) (t : Nat)
    (s1 : St) (tmE : TimerInfo) (e : PendingEntry)
    (hreq : isJSONRPCRequest m = true) (hid : m.id = some i)
    (hfresh : alookup s.pending i = none)
    (hwf : ∀ j td, alookup s.timeouts j = some td → td < s.nextTimer)
    (hs1 : s1 = handleIncomingMessage cfg s m extra tr t)
    (htmE : tmE = { tid := s.nextTimer, fireAt := t + evictionWindowMs, reqId := i })
    (he : e = { startTime := t, requestData := createTraceData cfg m extra tr t,
                requestExtra := extra, transport := tr }) :
    s1.exported = s.exported
  ∧ s1.pending.length = s.pending.length + 1
  ∧ tmE ∈ s1.timers
  ∧ tmE.fireAt = t + 5 * 60 * 1000
  ∧ ∀ evs : List Ev, (∀ ev ∈ evs, ¬ involves i ev) →
      alookup (run cfg s1 evs).pending i = some e
    ∧ tmE ∈ (run cfg s1 evs).timers
    ∧ alookup (fireTimer (run cfg s1 evs) tmE).pending i = none
    ∧ alookup (fireTimer (run cfg s1 evs) tmE).timeouts i = none
    ∧ (fireTimer (run cfg s1 evs) tmE).exported = (run cfg s1 evs).exported
    ∧ (fireTimer (run cfg s1 evs) tmE).pending.length + 1 = (run cfg s1 evs).pending.length := by
  subst hs1
  subst htmE
  subst he
  have hstep : handleIncomingMessage cfg s m extra tr t
      = { s with
          pending := ainsert s.pending i
            { startTime := t, requestData := createTraceData cfg m extra tr t,
              requestExtra := extra, transport := tr }
          timers := s.timers ++
            [{ tid := s.nextTimer, fireAt := t + evictionWindowMs, reqId := i }]
          timeouts := ainsert s.timeouts i s.nextTimer
          nextTimer := s.nextTimer + 1 } := by
    simp [handleIncomingMessage, hreq, handleRequest, hid]
  have hP1 : EvTimerState i
      { startTime := t, requestData := createTraceData cfg m extra tr t,
        requestExtra := extra, transport := tr }
      { tid := s.nextTimer, fireAt := t + evictionWindowMs, reqId := i }
      (handleIncomingMessage cfg s m extra tr t) := by
    rw [hstep]
    refine ⟨alookup_ainsert_self _ _ _, countKey_ainsert_fresh _ _ _ hfresh, ?_, rfl,
      alookup_ainsert_self _ _ _, Nat.lt_succ_self _, ?_⟩
    · simp
    · intro j td hj hlook
      rw [alookup_ainsert_ne _ _ _ _ hj] at hlook
      have := hwf j td hlook
      show td ≠ s.nextTimer
      omega
  refine ⟨by rw [hstep], by rw [hstep]; exact length_ainsert_new _ _ _ hfresh,
    by rw [hstep]; simp, rfl, ?_⟩
  intro evs hni
  have hP2 := run_preserves_evtimer cfg i _ _ _ evs hP1 hni
  obtain ⟨hpend2, hcount2, htm2, _, hto2, _, _⟩ := hP2
  have hstep2 : fireTimer (run cfg (handleIncomingMessage cfg s m extra tr t) evs)
      { tid := s.nextTimer, fireAt := t + evictionWindowMs, reqId := i }
      = { run cfg (handleIncomingMessage cfg s m extra tr t) evs with
          timers := (run cfg (handleIncomingMessage cfg s m extra tr t) evs).timers.erase
            { tid := s.nextTimer, fireAt := t + evictionWindowMs, reqId := i }
          pending := aerase (run cfg (handleIncomingMessage cfg s m extra tr t) evs).pending i
          timeouts := aerase (run cfg (handleIncomingMessage cfg s m extra tr t) evs).timeouts i } := by
    simp [fireTimer, htm2]
  refine ⟨hpend2, htm2, ?_, ?_, by rw [hstep2], ?_⟩
  · rw [hstep2]
    exact alookup_aerase_self _ _
  · rw [hstep2]
    exact alookup_aerase_self _ _
  · rw [hstep2]
    exact length_aerase_of_countKey_one _ _ hcount2

/-- C3 witness: the concrete request `reqMsg` placed at time 100 in a fresh
middleware exports nothing, schedules its eviction timer for `100 + 5min`,
and over any non-involving event sequence the timer's firing evicts the entry
and handle with no export, restoring the pending count. -/
theorem C3_eviction_witness :
    sReq.exported = (({} : St)).exported
  ∧ sReq.pending.length = (({} : St)).pending.length + 1
  ∧ tmReq ∈ sReq.timers
  ∧ tmReq.fireAt = 100 + 5 * 60 * 1000
  ∧ ∀ evs : List Ev, (∀ ev ∈ evs, ¬ involves (.num 1) ev) →
      alookup (run defaultCfg sReq evs).pending (.num 1) = some pReq
    ∧ tmReq ∈ (run defaultCfg sReq evs).timers
    ∧ alookup (fireTimer (run defaultCfg sReq evs) tmReq).pending (.num 1) = none
    ∧ alookup (fireTimer (run defaultCfg sReq evs) tmReq).timeouts (.num 1) = none
    ∧ (fireTimer (run defaultCfg sReq evs) tmReq).exported = (run defaultCfg sReq evs).exported
    ∧ (fireTimer (run defaultCfg sReq evs) tmReq).pending.length + 1
        = (run defaultCfg sReq evs).pending.length :=
  C3_eviction defaultCfg {} reqMsg (.num 1) none none 100 sReq tmReq pReq
    rfl rfl rfl (by intro j td h; simp [alookup] at h) rfl rfl rfl
